import Mathlib

/-!
Verification of the core reporting and time-logging logic of the
`log-time-to-tempo` command-line client.

The development shallowly embeds the relevant Python source:

* `_sparkline.py` — `generate_sparkline_from_daily_data` and its ASCII
  fallback `_generate_ascii_sparkline` (both enumerate the same day
  sequence and share the emptiness check; the ASCII fallback is the
  implementation present in the repository, so its character selection is
  the one embedded here);
* `cli/commands/log.py` — the `log` command (start-time resolution,
  end/duration reconciliation, overlap warnings, the 10-hour daily cap,
  confirmation and creation) and the `logm` command (`log_multi`);
* `cli/commands/stats.py` — per-project aggregation, per-day bucketing
  keyed by the `'%d.%m'` string, and the stable descending display sort.

Dates are modelled as natural numbers counting days since 0000-03-01
(proleptic Gregorian), so that Python's `date` ordering and
`date + timedelta(days=1)` become ordering and successor on `Nat`.
The civil calendar fields used by `strftime('%d.%m')` are recovered by
`civilFromDays` (standard era/year-of-era arithmetic, all in `Nat`
floor division, matching Python's `//` on the nonnegative values that
arise).  Python's `date.weekday()` (Monday = 0) is `(n + 2) % 7` on this
day count.  Times of day are seconds since midnight; durations are
seconds (`timedelta.total_seconds()`), signed where the code can produce
a negative difference.
-/

/-- Civil calendar fields `(year, month, day)` of day number `n`
(days since 0000-03-01), via era / year-of-era / day-of-year arithmetic.
Models the `.year`/`.month`/`.day` fields of the Python `date` that the
source formats with `strftime('%d.%m')`. -/
def civilFromDays (n : Nat) : Nat × Nat × Nat :=
  let era := n / 146097
  let doe := n % 146097
  let yoe := (doe - doe / 1460 + doe / 36524 - doe / 146096) / 365
  let y := yoe + era * 400
  let doy := doe - (365 * yoe + yoe / 4 - yoe / 100)
  let mp := (5 * doy + 2) / 153
  let d := doy - (153 * mp + 2) / 5 + 1
  let m := if mp < 10 then mp + 3 else mp - 9
  (if m ≤ 2 then y + 1 else y, m, d)

/-- The key a day is bucketed under: the pair `(day-of-month, month)`,
which is exactly the information in the `'%d.%m'` string produced by
`worklog.started.strftime('%d.%m')` and `current_date.strftime('%d.%m')`
in the source (the year is not part of the key). -/
def dayKey (n : Nat) : Nat × Nat :=
  ((civilFromDays n).2.2, (civilFromDays n).2.1)

/-- Python's `date.weekday()` (Monday = 0) on the day number. -/
def weekday (n : Nat) : Nat := (n + 2) % 7

/-- A workday is Monday through Friday (`weekday < 5`). -/
def isWorkday (n : Nat) : Bool := weekday n < 5

/-- The inclusive day sequence `[a, a+1, …, b]` generated by the source's
`while current_date <= to_date` loops (empty when `a > b`). -/
def dateRange (a b : Nat) : List Nat := List.range' a (b + 1 - a)

/-- Number of workdays (Mon–Fri) in the inclusive range `[a, b]` —
the quantity the specification says the sparkline length equals. -/
def numWorkdays (a b : Nat) : Nat := (dateRange a b).countP isWorkday

/-- Number of calendar days in the inclusive range `[a, b]`. -/
def numCalendarDays (a b : Nat) : Nat := (dateRange a b).length

/-- A per-day bucket as built by `cmd_stats`: accumulated
`timeSpentSeconds` plus the set of distinct comments logged that day. -/
structure DayBucket where
  seconds : Nat
  comments : List String
  deriving Repr, DecidableEq

/-- The `daily_data` dictionary consumed by the sparkline and produced by
the stats aggregation: an insertion-ordered association list from the
`(day, month)` key to its bucket. -/
abbrev DailyData : Type := List ((Nat × Nat) × DayBucket)

/-- The lookup `daily_data.get(date_str, \x7b\x7d).get('timeSpentSeconds', 0)`
performed by the sparkline for one key. -/
def lookupSeconds (data : DailyData) (k : Nat × Nat) : Nat :=
  match List.lookup k data with
  | some b => b.seconds
  | none => 0

/-- The `daily_values` list: one looked-up seconds value per calendar day
of the inclusive range, in chronological order. -/
def dailyValues (data : DailyData) (a b : Nat) : List Nat :=
  (dateRange a b).map (fun n => lookupSeconds data (dayKey n))

/-- The sparkline character palette `' ▁▂▃▄▅▆▇█'` of the source. -/
def SPARKLINE_CHARS : List Char := [' ', '▁', '▂', '▃', '▄', '▅', '▆', '▇', '█']

/-- Character chosen for one day: blank for 0, otherwise the palette
entry at `min((value/max)*8 truncated, 7) + 1`.  The source computes the
ratio on `value/3600` and `max/3600`; the common factor cancels, so the
index is computed here on raw seconds. -/
def charFor (maxV v : Nat) : Char :=
  if v = 0 then ' '
  else (SPARKLINE_CHARS.getD (min (v * 8 / maxV) 7 + 1) ' ')

/-- Maximum of the day values (the `max_value = max(daily_hours)` of the
source, kept in seconds). -/
def maxValue (data : DailyData) (a b : Nat) : Nat :=
  (dailyValues data a b).foldr max 0

/-- Embedding of `generate_sparkline_from_daily_data` /
`_generate_ascii_sparkline` from `_sparkline.py`: enumerate every
calendar day of `[a, b]`, look up its seconds, return `""` if the value
list is empty or all-zero, otherwise emit one palette character per day
in chronological order. -/
def generate_sparkline_from_daily_data (data : DailyData) (a b : Nat) : String :=
  let vals := dailyValues data a b
  if vals.isEmpty || vals.all (fun v => v = 0) then ""
  else String.mk (vals.map (charFor (maxValue data a b)))

/-- The three range buckets used to pick axis-label granularity. -/
inductive RangeType where
  | weekly
  | monthly
  | yearly
  deriving Repr, DecidableEq

/-- Modelled from the spec: `determine_date_range_type` lives in
`cli/_sparkline.py`, which is absent from the provided sources; only its
tests (`test_sparkline_axis.py`) are present.  The boundaries follow the
spec's test-confirmed values, which the in-repository tests pin exactly:
a difference of 13 days (14 inclusive days) is still `weekly`, 14–59
days difference (15–60 inclusive) is `monthly`, and 60 days difference
(61 inclusive) and beyond is `yearly`. -/
def determine_date_range_type (a b : Nat) : RangeType :=
  if b - a ≤ 13 then .weekly
  else if b - a ≤ 59 then .monthly
  else .yearly

/-- An existing worklog on the target day, as read by the `log` command:
`started.time()` in seconds since midnight and `timeSpentSeconds`. -/
structure Worklog where
  startSec : Nat
  durSec : Nat
  deriving Repr, DecidableEq

/-- The time of day at which an existing worklog ends:
`(worklog.started + timedelta(seconds=worklog.timeSpentSeconds)).time()`,
which wraps at midnight. -/
def worklogEnd (w : Worklog) : Nat := (w.startSec + w.durSec) % 86400

/-- Inputs of one `log` invocation after argument parsing: the parsed
duration (seconds), the optional `--start`, `--end` (seconds since
midnight) and `--lunch` (seconds), the `--yes` flag, and the user's
answer to the `Continue?` prompt. -/
structure LogParams where
  duration : Nat
  startOpt : Option Nat
  endOpt : Option Nat
  lunchOpt : Option Nat
  yes : Bool
  confirm : Bool
  deriving Repr, DecidableEq

/-- Start-time resolution of `log_time` (`log.py` lines 100–105):
an explicit `--start` wins; otherwise the end of the day's last worklog;
otherwise the parsed `LT_LOG_START` environment value; otherwise the
literal default `'9'`, i.e. 9:00. -/
def resolveStart (startOpt : Option Nat) (wl : List Worklog) (envStart : Option Nat) : Nat :=
  match startOpt with
  | some s => s
  | none =>
    match wl.getLast? with
    | some last => worklogEnd last
    | none => envStart.getD (9 * 3600)

/-- End/duration reconciliation of `log_time` (`log.py` lines 105–112):
with `--end`, the duration becomes `end − start`; without it, the end is
`(start + duration)` as a time of day.  A truthy `--lunch` is subtracted
from the duration and shifts the end back by the same amount (again as a
time of day, wrapping at midnight).  Returns `(duration, end)`. -/
def endAndDuration (start dur0 : Nat) (endOpt lunchOpt : Option Nat) : Int × Nat :=
  let dur1 : Int := match endOpt with
    | some e => (e : Int) - start
    | none => dur0
  let end1 : Nat := match endOpt with
    | some e => e
    | none => (start + dur0) % 86400
  match lunchOpt with
  | some l =>
    if l ≠ 0 then (dur1 - l, (((end1 : Int) - l).emod 86400).toNat) else (dur1, end1)
  | none => (dur1, end1)

/-- The overlap test of `log_time` (`log.py` lines 114–123) for one
existing worklog against the new entry's `[start, end)`. -/
def overlapsB (s e : Nat) (w : Worklog) : Bool :=
  decide (w.startSec < e) && decide (worklogEnd w > s)

/-- Possible outcomes of one `log` invocation past issue resolution. -/
inductive LogOutcome where
  | capExceeded
  | notConfirmed
  | created (startedSec : Nat) (durationSec : Int)
  deriving Repr, DecidableEq

/-- Observable result of one `log` invocation: the resolved start and
end times, the final duration handed to `create_worklog`, the worklogs
that triggered an overlap warning, and the outcome. -/
structure LogResult where
  resolvedStart : Nat
  resolvedEnd : Nat
  finalDuration : Int
  warnings : List Worklog
  outcome : LogOutcome
  deriving Repr, DecidableEq

/-- Total seconds already logged on the target day
(`sum(worklog.timeSpentSeconds for worklog in worklogs)`). -/
def sumSeconds (wl : List Worklog) : Nat := (wl.map Worklog.durSec).sum

/-- Embedding of the `log` command's time-arithmetic core
(`log.py` lines 97–146): resolve the start, reconcile end/duration and
lunch, collect the (non-blocking) overlap warnings, abort with the
daily-cap error when the day's previously logged seconds plus the new
duration strictly exceed 10 hours (the `error` helper lives in the
`cli` package `__init__`, absent from the provided sources; it is
modelled from the spec as aborting the command, which is also forced by
its use in `data.py`, where code after `error(...)` would crash if it
returned), and otherwise create the entry when `--yes` is set or the
confirmation prompt is accepted. -/
def log_time (wl : List Worklog) (p : LogParams) (envStart : Option Nat) : LogResult :=
  let s := resolveStart p.startOpt wl envStart
  let de := endAndDuration s p.duration p.endOpt p.lunchOpt
  let warns := wl.filter (overlapsB s de.2)
  let outcome : LogOutcome :=
    if (sumSeconds wl : Int) + de.1 > 36000 then .capExceeded
    else if p.yes || p.confirm then .created s de.1
    else .notConfirmed
  ⟨s, de.2, de.1, warns, outcome⟩

/-- Split a character list at the first colon, keeping the scanned
prefix reversed in the accumulator. -/
def splitFirstColonAux : List Char → List Char → Option (String × String)
  | [], _ => none
  | c :: cs, acc =>
    if c = ':' then some (String.mk acc.reverse, String.mk cs)
    else splitFirstColonAux cs (c :: acc)

/-- Splitting of one `logm` entry: `entry.split(':', 1)` into the issue
and the duration text, failing (the caught `ValueError`) when the entry
contains no colon. -/
def parseEntry (e : String) : Option (String × String) :=
  splitFirstColonAux e.data []

/-- Split a character list on commas (Python's `entries.split(',')`). -/
def splitCommaAux : List Char → List Char → List String
  | [], acc => [String.mk acc.reverse]
  | c :: cs, acc =>
    if c = ',' then String.mk acc.reverse :: splitCommaAux cs []
    else splitCommaAux cs (c :: acc)

/-- Python's `entries.split(',')`. -/
def splitComma (s : String) : List String := splitCommaAux s.data []

/-- Processing of one nonempty `logm` entry (`log.py` lines 170–187):
split it, parse the duration (the parser is passed in, since
`_time.parse_duration` is outside the provided sources), and invoke the
full `log` flow.  `none` models an abort of the whole command: a
malformed entry or unparsable duration raises the caught `ValueError`,
whose handler calls the aborting `error` helper, and a daily-cap
failure inside `log_time` raises out of the loop uncaught. -/
def processEntry (parseDur : String → Option Nat) (wl : List Worklog) (p0 : LogParams)
    (envStart : Option Nat) (e : String) : Option LogResult :=
  match parseEntry e with
  | none => none
  | some pr =>
    match parseDur pr.2 with
    | none => none
    | some d =>
      let r := log_time wl { p0 with duration := d } envStart
      if r.outcome = .capExceeded then none else some r

/-- The `logm` loop over the already-split entry list: empty entries are
skipped; each remaining entry is processed in order; an aborting entry
terminates the command, leaving the rest unprocessed.  Returns the
results of the completed invocations and whether the loop aborted. -/
def goEntries (parseDur : String → Option Nat) (wl : List Worklog) (p0 : LogParams)
    (envStart : Option Nat) : List String → List LogResult × Bool
  | [] => ([], false)
  | e :: rest =>
    if e = "" then goEntries parseDur wl p0 envStart rest
    else
      match processEntry parseDur wl p0 envStart e with
      | none => ([], true)
      | some r =>
        let rs := goEntries parseDur wl p0 envStart rest
        (r :: rs.1, rs.2)

/-- Embedding of the `logm` command (`log_multi` in `log.py`): split the
argument on commas and run the per-entry loop. -/
def log_multi (parseDur : String → Option Nat) (wl : List Worklog) (p0 : LogParams)
    (envStart : Option Nat) (entries : String) : List LogResult × Bool :=
  goEntries parseDur wl p0 envStart (splitComma entries)

/-- A worklog as consumed by `cmd_stats`: its resolved project name, its
day (as a day number), its seconds, and its comment. -/
structure StatsWorklog where
  project : String
  day : Nat
  seconds : Nat
  comment : String
  deriving Repr, DecidableEq

/-- One step of the per-project totals aggregation of `cmd_stats`
(lines 120–133): create the project entry on first sight (at the end,
preserving discovery order, as a Python dict does) or add to its
running total. -/
def updateProj (acc : List (String × Nat)) (w : StatsWorklog) : List (String × Nat) :=
  if acc.any (fun pr => pr.1 = w.project) then
    acc.map (fun pr => if pr.1 = w.project then (pr.1, pr.2 + w.seconds) else pr)
  else acc ++ [(w.project, w.seconds)]

/-- Per-project totals in discovery order, as accumulated by the
`stats` dict of `cmd_stats`. -/
def aggProjects (wl : List StatsWorklog) : List (String × Nat) :=
  wl.foldl updateProj []

/-- The display sort of `cmd_stats` (line 154):
`sorted(stats, key=lambda k: stats[k]['timeSpentSeconds'], reverse=True)`,
i.e. a stable sort descending by total seconds. -/
def sortedProjects (l : List (String × Nat)) : List (String × Nat) :=
  l.mergeSort (fun x y => y.2 ≤ x.2)

/-- Python's `set.add` on the comment list: append if absent. -/
def addComment (cs : List String) (c : String) : List String :=
  if c ∈ cs then cs else cs ++ [c]

/-- One step of the per-day bucketing of `cmd_stats` (lines 134–141):
the bucket key is `worklog.started.strftime('%d.%m')`, i.e. `dayKey`;
a new key starts a bucket with the worklog's seconds and comment, an
existing key accumulates seconds and adds the comment to the set. -/
def updateDay (acc : DailyData) (w : StatsWorklog) : DailyData :=
  match List.lookup (dayKey w.day) acc with
  | some _ =>
    acc.map (fun pr =>
      if pr.1 = dayKey w.day then (pr.1, ⟨pr.2.seconds + w.seconds, addComment pr.2.comments w.comment⟩)
      else pr)
  | none => acc ++ [(dayKey w.day, ⟨w.seconds, [w.comment]⟩)]

/-- The per-day buckets (`stats[project]['days']`) built by `cmd_stats`
for one project's worklogs, in order. -/
def aggDays (wl : List StatsWorklog) : DailyData :=
  wl.foldl updateDay []

/-- First-occurrence order of a list of project names: the order in
which a Python dict discovers its keys. -/
def firstOccur (l : List String) : List String :=
  l.foldl (fun acc x => if x ∈ acc then acc else acc ++ [x]) []

/-- A concrete duration parser used for concrete `logm` runs: accepts
only the text `8` (eight hours). -/
def pdT : String → Option Nat := fun s => if s = "8" then some 28800 else none

/-- Base `log` parameters for concrete `logm` runs: 8 hours, no
explicit start/end/lunch, `--yes` set. -/
def pBase : LogParams := ⟨28800, none, none, none, true, true⟩

/-- Daily data with one nonzero day keyed `01.01`. -/
def dataC1 : DailyData := [((1, 1), ⟨3600, []⟩)]

/-- A day with 9 hours already logged, starting at 9:00. -/
def wl9h : List Worklog := [⟨32400, 32400⟩]

/-- Parameters requesting 2 more hours (with `--yes`). -/
def pTwoH : LogParams := ⟨7200, none, none, none, true, false⟩

/-- Parameters requesting 1 more hour (with `--yes`). -/
def pOneH : LogParams := ⟨3600, none, none, none, true, false⟩

/-- An existing worklog from 9:00 to 12:00. -/
def wlMorning : List Worklog := [⟨32400, 10800⟩]

/-- Parameters requesting 11:00–13:00 explicitly. -/
def pOverlap : LogParams := ⟨0, some 39600, some 46800, none, true, true⟩

/-- Parameters requesting 12:00–13:00 explicitly. -/
def pAfter : LogParams := ⟨0, some 43200, some 46800, none, true, true⟩

/-- Parameters with `--start 9:00` and `--end 13:00`. -/
def pEndOnly : LogParams := ⟨3600, some 32400, some 46800, none, true, true⟩

/-- Parameters with `--start 9:00` and a 2-hour duration. -/
def pPlain : LogParams := ⟨7200, some 32400, none, none, true, true⟩

/-- Parameters with `--start 9:00`, `--end 13:00` and 30 minutes lunch. -/
def pBoth : LogParams := ⟨3600, some 32400, some 46800, some 1800, true, true⟩

/-- Two projects with equal totals, `A` discovered first. -/
def wlTie : List StatsWorklog := [⟨"A", 0, 5, ""⟩, ⟨"B", 0, 5, ""⟩]

/-- A worklog on 2023-03-15 (day number 738899). -/
def wA : StatsWorklog := ⟨"P", 738899, 3600, "c1"⟩

/-- A worklog on 2024-03-15 (day number 739265), one year later. -/
def wB : StatsWorklog := ⟨"P", 739265, 7200, "c2"⟩

/-- Helper: `updateProj` keeps the project-name list unchanged for an
already-known project and appends a new project at the end. -/
theorem updateProj_map_fst (acc : List (String × Nat)) (w : StatsWorklog) :
    (updateProj acc w).map Prod.fst =
      if w.project ∈ acc.map Prod.fst then acc.map Prod.fst
      else acc.map Prod.fst ++ [w.project] := by
  by_cases h : w.project ∈ acc.map Prod.fst
  · have hany : acc.any (fun pr => pr.1 = w.project) = true := by
      rw [List.any_eq_true]
      obtain ⟨pr, hpr, hfst⟩ := List.mem_map.mp h
      exact ⟨pr, hpr, by simp [hfst]⟩
    rw [if_pos h]
    unfold updateProj
    rw [if_pos hany, List.map_map]
    apply List.map_congr_left
    intro pr _
    by_cases hp : pr.1 = w.project <;> simp [hp]
  · have hany : acc.any (fun pr => pr.1 = w.project) = false := by
      rw [List.any_eq_false]
      intro pr hpr
      simp only [decide_eq_true_eq]
      intro hc
      exact h (List.mem_map.mpr ⟨pr, hpr, hc⟩)
    rw [if_neg h]
    unfold updateProj
    rw [hany]
    simp

/-- Helper: the project names of the aggregated totals list are the
first-occurrence dedup of the worklogs' project names. -/
theorem aggProjects_fst_aux (wl : List StatsWorklog) (acc : List (String × Nat)) :
    (wl.foldl updateProj acc).map Prod.fst =
      (wl.map StatsWorklog.project).foldl
        (fun acc' x => if x ∈ acc' then acc' else acc' ++ [x]) (acc.map Prod.fst) := by
  induction wl generalizing acc with
  | nil => rfl
  | cons w rest ih =>
    simp only [List.foldl_cons, List.map_cons]
    rw [ih, updateProj_map_fst]

/-- C1 (counterexample): over the week Monday 2024-01-01 … Sunday
2024-01-07 with one nonzero day, `generate_sparkline_from_daily_data`
returns a non-empty string of length 7 — the number of calendar days —
while the range has only 5 workdays, refuting the claim that the output
length equals the workday count. -/
theorem sparkline_not_workday_filtered :
    generate_sparkline_from_daily_data dataC1 739191 739197 ≠ "" ∧
    (generate_sparkline_from_daily_data dataC1 739191 739197).length = 7 ∧
    numWorkdays 739191 739197 = 5 ∧
    numCalendarDays 739191 739197 = 7 := by
  decide

/-- C1 (amended): a non-empty sparkline has exactly one character per
calendar day of the inclusive range — weekends included — in
chronological order: its length is the calendar-day count `b + 1 - a`,
and the character at position `i` renders the value looked up for day
`a + i`. -/
theorem sparkline_one_char_per_calendar_day : ∀ (data : DailyData) (a b : Nat),
    generate_sparkline_from_daily_data data a b ≠ "" →
    (generate_sparkline_from_daily_data data a b).length = numCalendarDays a b ∧
    numCalendarDays a b = b + 1 - a ∧
    (∀ i : Nat, i < b + 1 - a →
      (generate_sparkline_from_daily_data data a b).data[i]? =
        some (charFor (maxValue data a b) (lookupSeconds data (dayKey (a + i))))) := by
  intro data a b hne
  by_cases hc : ((dailyValues data a b).isEmpty || (dailyValues data a b).all (fun v => v = 0)) = true
  · exfalso; apply hne; unfold generate_sparkline_from_daily_data; rw [if_pos hc]
  · have hval : generate_sparkline_from_daily_data data a b =
        String.mk ((dailyValues data a b).map (charFor (maxValue data a b))) := by
      unfold generate_sparkline_from_daily_data; rw [if_neg hc]
    refine ⟨?_, ?_, ?_⟩
    · rw [hval]
      show ((dailyValues data a b).map (charFor (maxValue data a b))).length = _
      rw [List.length_map]
      unfold dailyValues numCalendarDays
      rw [List.length_map]
    · unfold numCalendarDays dateRange
      rw [List.length_range']
    · intro i hi
      rw [hval]
      show ((dailyValues data a b).map (charFor (maxValue data a b)))[i]? = _
      rw [List.getElem?_map]
      unfold dailyValues dateRange
      rw [List.getElem?_map, List.getElem?_range' _ _ hi]
      simp

/-- C1 (witness): the amended length law evaluated over the concrete
week 2024-01-01 … 2024-01-07. -/
theorem sparkline_one_char_per_calendar_day_witness :
    (generate_sparkline_from_daily_data dataC1 739191 739197).length =
      numCalendarDays 739191 739197 :=
  (sparkline_one_char_per_calendar_day dataC1 739191 739197 (by decide)).1

/-- C2 (counterexample): a range of 14 inclusive days (day 0 through
day 13) is classified `weekly`, not `monthly` as the claim's
`14 ≤ n ≤ 60 → monthly` clause demands. -/
theorem date_range_type_span14_not_monthly :
    determine_date_range_type 0 13 = RangeType.weekly ∧
    RangeType.weekly ≠ RangeType.monthly ∧
    13 - 0 + 1 = 14 := by
  decide

/-- C2 (amended): `determine_date_range_type` is a pure function of the
inclusive day span `n = b - a + 1`: `n ≤ 14` is weekly, `15 ≤ n ≤ 60`
is monthly, `n > 60` is yearly — the boundaries the repository's tests
pin (14 → weekly, 15 → monthly, 60 → monthly, 61 → yearly). -/
theorem date_range_type_boundaries : ∀ a b : Nat, a ≤ b →
    (b - a + 1 ≤ 14 → determine_date_range_type a b = .weekly) ∧
    (15 ≤ b - a + 1 → b - a + 1 ≤ 60 → determine_date_range_type a b = .monthly) ∧
    (60 < b - a + 1 → determine_date_range_type a b = .yearly) := by
  intro a b hab
  unfold determine_date_range_type
  refine ⟨fun h => ?_, fun h1 h2 => ?_, fun h => ?_⟩ <;>
    split_ifs with h1' h2' <;> first | rfl | omega

/-- C2 (witness): the four boundary spans evaluated concretely. -/
theorem date_range_type_boundaries_witness :
    determine_date_range_type 0 13 = RangeType.weekly ∧
    determine_date_range_type 0 14 = RangeType.monthly ∧
    determine_date_range_type 0 59 = RangeType.monthly ∧
    determine_date_range_type 0 60 = RangeType.yearly :=
  ⟨(date_range_type_boundaries 0 13 (by decide)).1 (by decide),
   (date_range_type_boundaries 0 14 (by decide)).2.1 (by decide) (by decide),
   (date_range_type_boundaries 0 59 (by decide)).2.1 (by decide) (by decide),
   (date_range_type_boundaries 0 60 (by decide)).2.2 (by decide)⟩

/-- C3: the `log` command fails with the daily-cap error exactly when
the seconds already logged that day plus the new entry's final duration
strictly exceed 10 hours (36000 s); at or below the cap the error never
fires, and with confirmation the entry is created. -/
theorem daily_cap_strict : ∀ (wl : List Worklog) (p : LogParams) (env : Option Nat),
    ((log_time wl p env).outcome = .capExceeded ↔
      (sumSeconds wl : Int) + (log_time wl p env).finalDuration > 36000) ∧
    ((sumSeconds wl : Int) + (log_time wl p env).finalDuration ≤ 36000 →
      (p.yes || p.confirm) = true →
      (log_time wl p env).outcome =
        .created (log_time wl p env).resolvedStart (log_time wl p env).finalDuration) := by
  intro wl p env
  dsimp only [log_time]
  split_ifs with h1 h2 <;> simp_all

/-- C3 (witness): with 9 h already logged, a 2-hour request hits the
cap and a 1-hour request (total exactly 10 h) is created. -/
theorem daily_cap_strict_witness :
    (log_time wl9h pTwoH none).outcome = LogOutcome.capExceeded ∧
    (log_time wl9h pOneH none).outcome = LogOutcome.created 64800 3600 := by
  constructor
  · exact (daily_cap_strict wl9h pTwoH none).1.mpr (by decide)
  · have h := (daily_cap_strict wl9h pOneH none).2 (by decide) (by decide)
    rw [show (log_time wl9h pOneH none).resolvedStart = 64800 from by decide,
        show (log_time wl9h pOneH none).finalDuration = 3600 from by decide] at h
    exact h

/-- C4: for a worklog that does not reach midnight and a non-degenerate
new entry, an overlap warning is emitted iff the half-open intervals
`[start, end)` and `[worklog.start, worklog.start + worklog.duration)`
intersect, and the warnings are non-blocking: below the cap and with
confirmation the entry is still created. -/
theorem overlap_warning_iff_intersection :
    ∀ (wl : List Worklog) (p : LogParams) (env : Option Nat) (w : Worklog),
    w.startSec + w.durSec < 86400 → 0 < w.durSec →
    (log_time wl p env).resolvedStart < (log_time wl p env).resolvedEnd →
    ((w ∈ (log_time wl p env).warnings ↔
      w ∈ wl ∧ ∃ t, (log_time wl p env).resolvedStart ≤ t ∧
        t < (log_time wl p env).resolvedEnd ∧
        w.startSec ≤ t ∧ t < w.startSec + w.durSec) ∧
    ((sumSeconds wl : Int) + (log_time wl p env).finalDuration ≤ 36000 →
      (p.yes || p.confirm) = true →
      (log_time wl p env).outcome =
        .created (log_time wl p env).resolvedStart (log_time wl p env).finalDuration)) := by
  intro wl p env w hw hd hse
  have hmod : worklogEnd w = w.startSec + w.durSec := Nat.mod_eq_of_lt hw
  dsimp only [log_time] at hse ⊢
  constructor
  · constructor
    · intro hmem
      have hmf := List.mem_filter.mp hmem
      refine ⟨hmf.1, ?_⟩
      have hb := hmf.2
      unfold overlapsB at hb
      rw [hmod] at hb
      simp only [Bool.and_eq_true, decide_eq_true_eq] at hb
      refine ⟨max (resolveStart p.startOpt wl env) w.startSec, ?_, ?_, ?_, ?_⟩ <;> omega
    · rintro ⟨hmem, t, h1, h2, h3, h4⟩
      apply List.mem_filter.mpr
      refine ⟨hmem, ?_⟩
      unfold overlapsB
      rw [hmod]
      simp only [Bool.and_eq_true, decide_eq_true_eq]
      omega
  · intro hcap hyc
    split_ifs with h1
    · exact absurd hcap (by omega)
    · rfl

/-- C4 (witness): against an existing 9:00–12:00 worklog, an 11:00–13:00
entry warns, a 12:00–13:00 entry does not, and the warned entry is
still created. -/
theorem overlap_warning_iff_intersection_witness :
    (⟨32400, 10800⟩ : Worklog) ∈ (log_time wlMorning pOverlap none).warnings ∧
    (⟨32400, 10800⟩ : Worklog) ∉ (log_time wlMorning pAfter none).warnings ∧
    (log_time wlMorning pOverlap none).outcome = LogOutcome.created 39600 7200 := by
  refine ⟨?_, ?_, ?_⟩
  · exact ((overlap_warning_iff_intersection wlMorning pOverlap none ⟨32400, 10800⟩
      (by decide) (by decide) (by decide)).1).mpr
      ⟨by decide, 39600, by decide, by decide, by decide, by decide⟩
  · intro hmem
    have h := ((overlap_warning_iff_intersection wlMorning pAfter none ⟨32400, 10800⟩
      (by decide) (by decide) (by decide)).1).mp hmem
    obtain ⟨-, t, h1, h2, h3, h4⟩ := h
    have e1 : (log_time wlMorning pAfter none).resolvedStart = 43200 := by decide
    rw [e1] at h1
    simp only at h4
    omega
  · have h := (overlap_warning_iff_intersection wlMorning pOverlap none ⟨32400, 10800⟩
      (by decide) (by decide) (by decide)).2 (by decide) (by decide)
    rw [show (log_time wlMorning pOverlap none).resolvedStart = 39600 from by decide,
        show (log_time wlMorning pOverlap none).finalDuration = 7200 from by decide] at h
    exact h

/-- C5: the sparkline returns the empty string (a total function — no
exception) whenever every rendered day's looked-up seconds are zero,
which covers absent keys and an empty range; and it is non-empty for
a concrete input with a nonzero workday. -/
theorem sparkline_empty_on_zero_data :
    (∀ (data : DailyData) (a b : Nat),
      (∀ v ∈ dailyValues data a b, v = 0) →
      generate_sparkline_from_daily_data data a b = "") ∧
    generate_sparkline_from_daily_data dataC1 739191 739193 ≠ "" := by
  constructor
  · intro data a b h
    unfold generate_sparkline_from_daily_data
    have hall : (dailyValues data a b).all (fun v => v = 0) = true := by
      rw [List.all_eq_true]; intro v hv; exact decide_eq_true (h v hv)
    simp [hall]
  · decide

/-- C5 (witness): the all-zero case evaluated on an empty dictionary
over the concrete range day 0 … day 3. -/
theorem sparkline_empty_on_zero_data_witness :
    generate_sparkline_from_daily_data [] 0 3 = "" :=
  sparkline_empty_on_zero_data.1 [] 0 3 (by decide)

/-- C6: the `log` command resolves its start time by priority: an
explicit `--start` wins; else the end of the day's last worklog; else
the configured environment default; else the literal 9:00. -/
theorem start_time_priority : ∀ (wl : List Worklog) (p : LogParams) (env : Option Nat),
    (∀ s, p.startOpt = some s → (log_time wl p env).resolvedStart = s) ∧
    (p.startOpt = none → ∀ w, wl.getLast? = some w →
      (log_time wl p env).resolvedStart = worklogEnd w) ∧
    (p.startOpt = none → wl = [] → ∀ v, env = some v →
      (log_time wl p env).resolvedStart = v) ∧
    (p.startOpt = none → wl = [] → env = none →
      (log_time wl p env).resolvedStart = 9 * 3600) := by
  intro wl p env
  dsimp only [log_time]
  refine ⟨?_, ?_, ?_, ?_⟩
  · intro s hs; simp [resolveStart, hs]
  · intro hs w hw; simp [resolveStart, hs, hw]
  · intro hs hwl v hv; subst hwl; simp [resolveStart, hs, hv]
  · intro hs hwl hv; subst hwl; simp [resolveStart, hs, hv]

/-- C6 (witness): the four priority levels evaluated concretely:
explicit 100 s; end of a 9:00+1h worklog (10:00); environment 8:00;
fallback 9:00. -/
theorem start_time_priority_witness :
    (log_time [] (⟨3600, some 100, none, none, true, true⟩ : LogParams) none).resolvedStart = 100 ∧
    (log_time [⟨32400, 3600⟩] (⟨3600, none, none, none, true, true⟩ : LogParams) none).resolvedStart = 36000 ∧
    (log_time [] (⟨3600, none, none, none, true, true⟩ : LogParams) (some 28800)).resolvedStart = 28800 ∧
    (log_time [] (⟨3600, none, none, none, true, true⟩ : LogParams) none).resolvedStart = 9 * 3600 := by
  refine ⟨?_, ?_, ?_, ?_⟩
  · exact (start_time_priority [] _ none).1 100 rfl
  · have h := (start_time_priority [⟨32400, 3600⟩] ⟨3600, none, none, none, true, true⟩ none).2.1
      rfl ⟨32400, 3600⟩ (by decide)
    rw [h]; decide
  · exact (start_time_priority [] _ (some 28800)).2.2.1 rfl rfl 28800 rfl
  · exact (start_time_priority [] _ none).2.2.2 rfl rfl rfl

/-- C7: with `--end`, the duration is recomputed as `end − start` and
the given duration is ignored; without it, the end is `start + duration`
(as a wrapping time of day); a nonzero `--lunch` subtracts from the
pre-lunch duration and shifts the pre-lunch end back by the same
amount, so with both `--end` and `--lunch` the final duration is
`(end − start) − lunch`. -/
theorem end_duration_lunch_reconciliation :
    ∀ (wl : List Worklog) (p : LogParams) (env : Option Nat),
    (p.lunchOpt = none → ∀ e, p.endOpt = some e →
      (log_time wl p env).finalDuration = (e : Int) - (log_time wl p env).resolvedStart ∧
      (log_time wl p env).resolvedEnd = e) ∧
    (p.lunchOpt = none → p.endOpt = none →
      (log_time wl p env).finalDuration = p.duration ∧
      (log_time wl p env).resolvedEnd =
        ((log_time wl p env).resolvedStart + p.duration) % 86400) ∧
    (∀ l, p.lunchOpt = some l → l ≠ 0 →
      (log_time wl p env).finalDuration =
        (endAndDuration (log_time wl p env).resolvedStart p.duration p.endOpt none).1 - l ∧
      (log_time wl p env).resolvedEnd =
        ((((endAndDuration (log_time wl p env).resolvedStart p.duration p.endOpt none).2 : Int)
          - l).emod 86400).toNat) ∧
    (∀ e l, p.endOpt = some e → p.lunchOpt = some l → l ≠ 0 →
      (log_time wl p env).finalDuration = (e : Int) - (log_time wl p env).resolvedStart - l) ∧
    (∀ e, p.endOpt = some e → ∀ d2,
      (log_time wl { p with duration := d2 } env).finalDuration =
        (log_time wl p env).finalDuration) := by
  intro wl p env
  refine ⟨?_, ?_, ?_, ?_, ?_⟩
  · intro hl e he; simp [log_time, endAndDuration, hl, he]
  · intro hl he; simp [log_time, endAndDuration, hl, he]
  · intro l hl hlz
    cases he : p.endOpt with
    | none => simp [log_time, endAndDuration, hl, he, hlz]
    | some e => simp [log_time, endAndDuration, hl, he, hlz]
  · intro e l he hl hlz; simp [log_time, endAndDuration, hl, he, hlz]
  · intro e he d2
    cases hl : p.lunchOpt with
    | none => simp [log_time, endAndDuration, resolveStart, hl, he]
    | some l =>
      by_cases hlz : l = 0 <;> simp [log_time, endAndDuration, resolveStart, hl, he, hlz]

/-- C7 (witness): start 9:00 with end 13:00 gives 4 h; start 9:00 with
a 2 h duration ends 11:00; adding 30 min lunch to the end case gives
3.5 h ending 12:30; and the duration argument is ignored when `--end`
is present. -/
theorem end_duration_lunch_reconciliation_witness :
    (log_time [] pEndOnly none).finalDuration = 14400 ∧
    (log_time [] pEndOnly none).resolvedEnd = 46800 ∧
    (log_time [] pPlain none).finalDuration = 7200 ∧
    (log_time [] pPlain none).resolvedEnd = 39600 ∧
    (log_time [] pBoth none).finalDuration = 12600 ∧
    (log_time [] pBoth none).resolvedEnd = 45000 ∧
    (log_time [] { pEndOnly with duration := 99999 } none).finalDuration =
      (log_time [] pEndOnly none).finalDuration := by
  have h1 := (end_duration_lunch_reconciliation [] pEndOnly none).1 rfl 46800 rfl
  have h2 := (end_duration_lunch_reconciliation [] pPlain none).2.1 rfl rfl
  have h3 := (end_duration_lunch_reconciliation [] pBoth none).2.2.2.1 46800 1800 rfl rfl (by decide)
  have h4 := (end_duration_lunch_reconciliation [] pBoth none).2.2.1 1800 rfl (by decide)
  refine ⟨?_, h1.2, ?_, ?_, ?_, ?_, ?_⟩
  · rw [h1.1, show (log_time [] pEndOnly none).resolvedStart = 32400 from by decide]; decide
  · rw [h2.1]; decide
  · rw [h2.2, show (log_time [] pPlain none).resolvedStart = 32400 from by decide]; decide
  · rw [h3, show (log_time [] pBoth none).resolvedStart = 32400 from by decide]; decide
  · rw [h4.2, show (log_time [] pBoth none).resolvedStart = 32400 from by decide]; decide
  · exact (end_duration_lunch_reconciliation [] pEndOnly none).2.2.2.2 46800 rfl 99999

/-- C8 (counterexample): in `logm`, a malformed first entry (`x`, no
colon) aborts the whole command — zero entries are processed and the
loop reports the abort — even though the following entry `A:8`
succeeds when run on its own, refuting the claim that one entry's
failure does not prevent the remaining entries from being processed. -/
theorem log_multi_failure_blocks_rest :
    (log_multi pdT [] pBase none "x,A:8").1.length = 0 ∧
    (log_multi pdT [] pBase none "x,A:8").2 = true ∧
    (log_multi pdT [] pBase none "A:8").1.length = 1 ∧
    (log_multi pdT [] pBase none "A:8").2 = false := by
  decide

/-- C8 (amended): `logm` splits its argument on commas and invokes the
full log procedure once per nonempty entry in order; entries whose log
step completes (including by returning without creating) are all
processed, but an aborting entry — malformed text, unparsable duration,
or a daily-cap failure — terminates the command, leaving the remaining
entries unprocessed. -/
theorem log_multi_sequential_processing :
    ∀ (pd : String → Option Nat) (wl : List Worklog) (p0 : LogParams) (env : Option Nat),
    (∀ s, log_multi pd wl p0 env s = goEntries pd wl p0 env (splitComma s)) ∧
    (∀ es : List String, (∀ e ∈ es, e ≠ "" → (processEntry pd wl p0 env e).isSome) →
      goEntries pd wl p0 env es =
        ((es.filter (fun e => e ≠ "")).filterMap (processEntry pd wl p0 env), false)) ∧
    (∀ (pre : List String) (e : String) (rest : List String),
      (∀ e' ∈ pre, e' ≠ "" → (processEntry pd wl p0 env e').isSome) →
      e ≠ "" → processEntry pd wl p0 env e = none →
      goEntries pd wl p0 env (pre ++ e :: rest) =
        ((pre.filter (fun e' => e' ≠ "")).filterMap (processEntry pd wl p0 env), true)) := by
  intro pd wl p0 env
  refine ⟨fun s => rfl, ?_, ?_⟩
  · intro es h
    induction es with
    | nil => rfl
    | cons e rest ih =>
      by_cases he : e = ""
      · subst he
        rw [goEntries]
        simp only [if_pos rfl]
        rw [ih (fun e' h' hne => h e' (List.mem_cons_of_mem _ h') hne)]
        simp
      · have hsome := h e (List.mem_cons_self e rest) he
        obtain ⟨r, hr⟩ := Option.isSome_iff_exists.mp hsome
        rw [goEntries]
        rw [if_neg he, hr]
        rw [ih (fun e' h' hne => h e' (List.mem_cons_of_mem _ h') hne)]
        simp [List.filter_cons, he, List.filterMap_cons, hr]
  · intro pre e rest hpre hne hnone
    induction pre with
    | nil =>
      simp only [List.nil_append, List.filter_nil, List.filterMap_nil]
      rw [goEntries, if_neg hne, hnone]
    | cons a pre' ih =>
      by_cases ha : a = ""
      · subst ha
        rw [List.cons_append, goEntries, if_pos rfl]
        rw [ih (fun e' h' hne' => hpre e' (List.mem_cons_of_mem _ h') hne')]
        simp
      · have hsome := hpre a (List.mem_cons_self a pre') ha
        obtain ⟨r, hr⟩ := Option.isSome_iff_exists.mp hsome
        rw [List.cons_append, goEntries, if_neg ha, hr]
        rw [ih (fun e' h' hne' => hpre e' (List.mem_cons_of_mem _ h') hne')]
        simp [List.filter_cons, ha, List.filterMap_cons, hr]

/-- C8 (witness): the abort law applied to the concrete entry list
`A:8`, `x`, `B:8`: only the prefix before the malformed entry is
processed. -/
theorem log_multi_sequential_processing_witness :
    goEntries pdT [] pBase none ["A:8", "x", "B:8"] =
      ((["A:8"].filter (fun e' => e' ≠ "")).filterMap (processEntry pdT [] pBase none), true) :=
  (log_multi_sequential_processing pdT [] pBase none).2.2 ["A:8"] "x" ["B:8"]
    (by decide) (by decide) (by decide)

/-- C9: the stats display order is a permutation of the discovered
projects, sorted descending by total seconds, with equal-total projects
keeping their relative order (stability), and the discovered projects
are listed in first-occurrence order of the worklog sequence. -/
theorem stats_projects_sorted_stable : ∀ (wl : List StatsWorklog),
    List.Perm (sortedProjects (aggProjects wl)) (aggProjects wl) ∧
    (sortedProjects (aggProjects wl)).Pairwise (fun x y => y.2 ≤ x.2) ∧
    (∀ x y : String × Nat, x.2 = y.2 → List.Sublist [x, y] (aggProjects wl) →
      List.Sublist [x, y] (sortedProjects (aggProjects wl))) ∧
    (aggProjects wl).map Prod.fst = firstOccur (wl.map StatsWorklog.project) := by
  intro wl
  have htrans : ∀ (a b c : String × Nat),
      (fun x y : String × Nat => decide (y.2 ≤ x.2)) a b = true →
      (fun x y : String × Nat => decide (y.2 ≤ x.2)) b c = true →
      (fun x y : String × Nat => decide (y.2 ≤ x.2)) a c = true := by
    intro a b c h1 h2
    simp only [decide_eq_true_eq] at *
    omega
  have htotal : ∀ (a b : String × Nat),
      ((fun x y : String × Nat => decide (y.2 ≤ x.2)) a b ||
       (fun x y : String × Nat => decide (y.2 ≤ x.2)) b a) = true := by
    intro a b
    simp only [Bool.or_eq_true, decide_eq_true_eq]
    omega
  refine ⟨List.mergeSort_perm _ _, ?_, ?_, ?_⟩
  · have := List.sorted_mergeSort htrans htotal (aggProjects wl)
    exact this.imp (fun h => by simpa using h)
  · intro x y hxy hsub
    exact List.pair_sublist_mergeSort htrans htotal (by simp [hxy]) hsub
  · unfold aggProjects firstOccur
    simpa using aggProjects_fst_aux wl []

/-- C9 (witness): two projects with equal totals, discovered `A` then
`B`, stay in that order in the sorted display. -/
theorem stats_projects_sorted_stable_witness :
    List.Sublist [("A", 5), ("B", 5)] (sortedProjects (aggProjects wlTie)) :=
  (stats_projects_sorted_stable wlTie).2.2.1 ("A", 5) ("B", 5) rfl (by decide)

/-- C10: in a range spanning more than one year, two worklogs on
distinct days that share the `(day, month)` key — dates exactly one
year apart — are merged into a single daily bucket whose seconds are
their sum, and the sparkline's per-day lookup returns that merged value
for every day of the range formatting to the same key. -/
theorem daily_bucket_year_collision : ∀ (w1 w2 : StatsWorklog) (a b : Nat),
    a + 366 ≤ b → a ≤ w1.day → w1.day ≤ b → a ≤ w2.day → w2.day ≤ b →
    w1.day ≠ w2.day → dayKey w1.day = dayKey w2.day →
    aggDays [w1, w2] =
      [(dayKey w1.day, ⟨w1.seconds + w2.seconds, addComment [w1.comment] w2.comment⟩)] ∧
    (∀ d, a ≤ d → d ≤ b → dayKey d = dayKey w1.day →
      lookupSeconds (aggDays [w1, w2]) (dayKey d) = w1.seconds + w2.seconds) := by
  intro w1 w2 a b hspan h1a h1b h2a h2b hne hk
  have hstep : aggDays [w1, w2] =
      [(dayKey w1.day, ⟨w1.seconds + w2.seconds, addComment [w1.comment] w2.comment⟩)] := by
    unfold aggDays
    simp only [List.foldl_cons, List.foldl_nil]
    rw [show updateDay [] w1 = [(dayKey w1.day, ⟨w1.seconds, [w1.comment]⟩)] from rfl]
    unfold updateDay
    rw [← hk]
    simp [List.lookup]
  refine ⟨hstep, ?_⟩
  intro d hda hdb hdk
  rw [hstep]
  unfold lookupSeconds
  rw [hdk]
  simp [List.lookup]

/-- C10 (witness): worklogs on 2023-03-15 and 2024-03-15 (both keyed
`15.03`) inside the range 2023-03-06 … 2024-04-19 merge into one bucket,
and the sparkline lookup on 2024-03-15 sees the 3 h + 2 h sum. -/
theorem daily_bucket_year_collision_witness :
    lookupSeconds (aggDays [wA, wB]) (dayKey 739265) = 3600 + 7200 :=
  (daily_bucket_year_collision wA wB 738890 739300 (by decide) (by decide) (by decide)
    (by decide) (by decide) (by decide) (by decide)).2 739265 (by decide) (by decide) (by decide)
